import Mathlib

/-!
Verification of the cycleops CLI specification against the source.

This file embeds the core of the cycleops repository in Lean 4:

* the dotted-path variable-merge engine of `src/cycleops/services.py`
  (`validate_variable_format`, `dict_from_variables`,
  `should_create_new_node`, `parse_if_bool`);
* the `--wait` branches of `deploy` and `destroy` in
  `src/cycleops/setups.py` together with the log-stream listen loop of
  `src/cycleops/client.py` (`WebSocketClient.listen`);
* the response classification of `Client._handle_response`
  (`src/cycleops/client.py`) and `extract_error_message`
  (`src/cycleops/utils.py`);
* the name-before-id resource resolution of `get_service`
  (`src/cycleops/services.py`) and `get_setup` (`src/cycleops/setups.py`).

Python documents (nested dicts and lists built from `key.path=value`
strings) are modelled by the inductive type `Doc`.  Python exceptions
raised by the merge loop (ValueError, IndexError, KeyError, TypeError,
AttributeError) are modelled by `Except MergeError`; in-place mutation
along the key path is modelled by functionally rebuilding the document
along that path, which is observationally equivalent for the returned
value.  String primitives (`split`, `strip`, `lower`, `isdigit`,
substring membership) are implemented structurally over `String.data`
so that every definition evaluates by kernel reduction.
-/

/-! ## String primitives (structural re-implementations of the Python ones) -/

/-- Membership of a character in a character list; models Python `c in s`
for a single character. -/
def charsContains (c : Char) : List Char → Bool
  | [] => false
  | a :: as => if a = c then true else charsContains c as

/-- Split a character list at every occurrence of the separator, keeping
empty pieces; models Python `s.split(sep)` for a one-character separator. -/
def splitOnChar (c : Char) : List Char → List (List Char)
  | [] => [[]]
  | a :: as =>
    if a = c then [] :: splitOnChar c as
    else
      match splitOnChar c as with
      | [] => [[a]]
      | h :: t => (a :: h) :: t

/-- Join character lists with a separator character; inverse of
`splitOnChar`, used to model Python `split(sep, maxsplit=1)` by
re-joining the tail of a full split. -/
def joinWithChar (c : Char) : List (List Char) → List Char
  | [] => []
  | [x] => x
  | x :: xs => x ++ c :: joinWithChar c xs

/-- Strip leading and trailing whitespace; models Python `s.strip()`. -/
def trimChars (l : List Char) : List Char :=
  ((l.dropWhile Char.isWhitespace).reverse.dropWhile Char.isWhitespace).reverse

/-- Decimal value of a digit string; models Python `int(s)` on a string of
digits. -/
def natOfDigits (l : List Char) : Nat :=
  l.foldl (fun n c => 10 * n + (c.toNat - 48)) 0

/-- Lower-case a string character by character; models Python `s.lower()`
on ASCII data. -/
def strToLower (s : String) : String :=
  String.mk (s.data.map Char.toLower)

/-- Does the first list occur as a contiguous run at the head of the
second? -/
def charsStartWith : List Char → List Char → Bool
  | [], _ => true
  | _ :: _, [] => false
  | p :: ps, a :: as => if p = a then charsStartWith ps as else false

/-- Does the first list occur contiguously anywhere in the second?
Models Python substring membership `needle in haystack`. -/
def charsHasSub (p : List Char) : List Char → Bool
  | [] => charsStartWith p []
  | a :: as => charsStartWith p (a :: as) || charsHasSub p as

/-- Substring membership on strings; models Python `needle in haystack`. -/
def strContainsSub (needle haystack : String) : Bool :=
  charsHasSub needle.data haystack.data

/-! ## The variable document model -/

/-- A key of a Python dict as used by the merge engine: the engine inserts
string keys for name segments and (for a final index segment on a dict
that is long enough) integer keys. -/
inductive DKey where
  | ks (s : String)
  | ki (n : Nat)
  deriving DecidableEq, Repr

/-- A nested variables document: scalar string and boolean leaves, dicts
with `DKey` keys in insertion order, and lists. -/
inductive Doc where
  | str (s : String)
  | bool (b : Bool)
  | obj (fields : List (DKey × Doc))
  | arr (elems : List Doc)

/-- First value bound to a key, if any; models Python dict lookup and the
`key in dict` test. -/
def getKey? : List (DKey × Doc) → DKey → Option Doc
  | [], _ => none
  | (k, v) :: rest, key => if k = key then some v else getKey? rest key

/-- Replace the binding of a key, or append a new binding at the end;
models Python `d[key] = v` including insertion order. -/
def setKey : List (DKey × Doc) → DKey → Doc → List (DKey × Doc)
  | [], key, v => [(key, v)]
  | (k, w) :: rest, key, v =>
    if k = key then (key, v) :: rest else (k, w) :: setKey rest key v

/-- List indexing; models Python `l[i]` (read). -/
def listGet? {α : Type} : List α → Nat → Option α
  | [], _ => none
  | a :: _, 0 => some a
  | _ :: as, n + 1 => listGet? as n

/-- In-bounds list update; models Python `l[i] = v`. -/
def listSet {α : Type} : List α → Nat → α → List α
  | [], _, _ => []
  | _ :: as, 0, b => b :: as
  | a :: as, n + 1, b => a :: listSet as n b

/-- Errors raised by the merge engine, modelling the Python exceptions:
`invalidFormat` for the two ValueErrors of `validate_variable_format`,
`indexOutOfRange` for IndexError, `keyError` for KeyError, and
`typeError` for TypeError / AttributeError raised when a path segment
meets a node of the wrong shape. -/
inductive MergeError where
  | invalidFormat
  | indexOutOfRange
  | keyError
  | typeError
  deriving DecidableEq, Repr

/-- Is an `Except` value a success? -/
def exceptIsOk {ε α : Type} : Except ε α → Bool
  | Except.ok _ => true
  | Except.error _ => false

/-! ## The path-merge engine (src/cycleops/services.py) -/

/-- Embeds `validate_variable_format` (services.py lines 154-171): reject
when no `=` occurs; split at the first `=`; reject when the key or the
value part is empty (checked before stripping); return the stripped key
and value. -/
def validate_variable_format (varStr : String) : Except MergeError (String × String) :=
  if charsContains '=' varStr.data = false then
    Except.error MergeError.invalidFormat
  else
    let parts := splitOnChar '=' varStr.data
    let key := parts.headD []
    let value := joinWithChar '=' parts.tail
    if key.isEmpty || value.isEmpty then
      Except.error MergeError.invalidFormat
    else
      Except.ok (String.mk (trimChars key), String.mk (trimChars value))

/-- A path segment: `int(x)` when the segment is entirely digits, the
string itself otherwise (services.py line 195). -/
inductive Seg where
  | name (s : String)
  | idx (n : Nat)
  deriving DecidableEq, Repr

/-- Tag a split piece of the key as a name or an index segment; models
`int(x) if x.isdigit() else x`. -/
def segOfChars (x : List Char) : Seg :=
  if !x.isEmpty && x.all Char.isDigit then Seg.idx (natOfDigits x)
  else Seg.name (String.mk x)

/-- Is a segment an index segment? Models `type(key) is int`. -/
def isIdx : Seg → Bool
  | Seg.idx _ => true
  | Seg.name _ => false

/-- Python `len` on a document node: number of dict entries, list
elements, or string characters; TypeError on a boolean. -/
def pyLen : Doc → Except MergeError Nat
  | Doc.obj fields => Except.ok fields.length
  | Doc.arr l => Except.ok l.length
  | Doc.str t => Except.ok t.data.length
  | Doc.bool _ => Except.error MergeError.typeError

/-- Embeds `should_create_new_node` (services.py lines 218-228): for an
index key, whether the index is at or past the end of the current node;
for a string key, `False`. -/
def should_create_new_node (key : Seg) (current_node : Doc) : Except MergeError Bool :=
  match key with
  | Seg.idx k => (pyLen current_node).map (fun n => decide (n ≤ k))
  | Seg.name _ => Except.ok false

/-- Embeds `parse_if_bool` (services.py lines 231-238): the strings
`true`/`false` compared case-insensitively become booleans; everything
else stays a string. -/
def parse_if_bool (value : String) : Doc :=
  if strToLower value = "true" then Doc.bool true
  else if strToLower value = "false" then Doc.bool false
  else Doc.str value

/-- Embeds the assignment at the last key (services.py lines 209-213):
`if should_create_new_node(last_key, current_node): current_node.append(value)`
followed by `current_node[last_key] = parse_if_bool(value)`.  On a list,
an index at the append point first appends the raw value and the
assignment then overwrites it with the parsed value; an index past the
append point appends and then fails with IndexError.  A string key on a
list, and any key on a scalar, raise TypeError; an index at or past the
length of a dict raises AttributeError (`dict` has no `append`), while a
smaller index inserts an integer key into the dict. -/
def assignLast : Seg → String → Doc → Except MergeError Doc
  | Seg.name s, value, Doc.obj fields =>
    Except.ok (Doc.obj (setKey fields (DKey.ks s) (parse_if_bool value)))
  | Seg.name _, _, _ => Except.error MergeError.typeError
  | Seg.idx k, value, Doc.arr l =>
    let l1 := if l.length ≤ k then l ++ [Doc.str value] else l
    if k < l1.length then Except.ok (Doc.arr (listSet l1 k (parse_if_bool value)))
    else Except.error MergeError.indexOutOfRange
  | Seg.idx k, value, Doc.obj fields =>
    if fields.length ≤ k then Except.error MergeError.typeError
    else Except.ok (Doc.obj (setKey fields (DKey.ki k) (parse_if_bool value)))
  | Seg.idx _, _, Doc.str _ => Except.error MergeError.typeError
  | Seg.idx _, _, Doc.bool _ => Except.error MergeError.typeError

/-- Embeds the walk of `dict_from_variables` (services.py lines 198-213)
over one parsed path.  Intermediate segments (the Python loop over
`keys[:-1]`, which always sees a following segment `next_key`) create
missing containers and descend; the final segment is handled by
`assignLast`.  For a string key on a dict, a missing entry is created as
a list when the next segment is an index and as a dict otherwise.  For an
index key, `should_create_new_node` triggers `current_node.append({})` —
always an empty dict — after which `current_node[key]` descends (raising
IndexError when the index is past the freshly appended end).  Descending
into a character of a string models Python string indexing; the parent
string is unchanged because Python strings are immutable and every
continuation from a string node raises before mutating. -/
def applySegs : List Seg → String → Doc → Except MergeError Doc
  | [], _, _ => Except.error MergeError.typeError
  | [last], value, node => assignLast last value node
  | seg :: next :: rest, value, node =>
    match seg, node with
    | Seg.name s, Doc.obj fields =>
      let child0 : Doc := if isIdx next then Doc.arr [] else Doc.obj []
      let fields1 :=
        match getKey? fields (DKey.ks s) with
        | none => setKey fields (DKey.ks s) child0
        | some _ => fields
      match getKey? fields1 (DKey.ks s) with
      | some child =>
        (applySegs (next :: rest) value child).map
          (fun d => Doc.obj (setKey fields1 (DKey.ks s) d))
      | none => Except.error MergeError.keyError
    | Seg.name _, _ => Except.error MergeError.typeError
    | Seg.idx k, Doc.arr l =>
      let l1 := if l.length ≤ k then l ++ [Doc.obj []] else l
      match listGet? l1 k with
      | some child =>
        (applySegs (next :: rest) value child).map
          (fun d => Doc.arr (listSet l1 k d))
      | none => Except.error MergeError.indexOutOfRange
    | Seg.idx k, Doc.obj fields =>
      if fields.length ≤ k then Except.error MergeError.typeError
      else
        match getKey? fields (DKey.ki k) with
        | some child =>
          (applySegs (next :: rest) value child).map
            (fun d => Doc.obj (setKey fields (DKey.ki k) d))
        | none => Except.error MergeError.keyError
    | Seg.idx k, Doc.str t =>
      if t.data.length ≤ k then Except.error MergeError.typeError
      else
        match listGet? t.data k with
        | some c =>
          (applySegs (next :: rest) value (Doc.str (String.mk [c]))).map
            (fun _ => Doc.str t)
        | none => Except.error MergeError.indexOutOfRange
    | Seg.idx _, Doc.bool _ => Except.error MergeError.typeError

/-- Embeds `dict_from_variables` (services.py lines 174-215): for each
variable string, validate and split it, split the stripped key on `.`
into tagged segments, and merge the value into the document along that
path.  The first exception aborts the whole call. -/
def dict_from_variables (vars : List String) (top_level_dict : Doc) :
    Except MergeError Doc :=
  vars.foldlM
    (fun doc varStr =>
      match validate_variable_format varStr with
      | Except.error e => Except.error e
      | Except.ok kv =>
        applySegs ((splitOnChar '.' kv.fst.data).map segOfChars) kv.snd doc)
    top_level_dict

/-- Models CPython default-argument semantics for `dict_from_variables`
(services.py line 175): the default `top_level_dict = {}` is evaluated
once at function definition time, and every call that omits the argument
mutates that same dict in place, so state accumulates across calls.
Given the variable lists of successive calls that all omit the document
argument, returns the document the last call returns. -/
def dict_from_variables_default_calls (calls : List (List String)) :
    Except MergeError Doc :=
  calls.foldlM (fun doc vars => dict_from_variables vars doc) (Doc.obj [])

/-! ## The merge engine as worded by the specification

These definitions follow the words of spec sections 4.1 and 8, not the
source; they exist only to be compared with the source-derived engine
above (refinement), in particular where the spec decides the kind of a
freshly appended container by the kind of the next path segment. -/

/-- Modelled from the spec (section 4.1, parsing rule 1): split on the
first `=`, reject when no `=` is present or when the key or the value is
empty after trimming whitespace. -/
def validate_per_spec (varStr : String) : Except MergeError (String × String) :=
  if charsContains '=' varStr.data = false then
    Except.error MergeError.invalidFormat
  else
    let parts := splitOnChar '=' varStr.data
    let key := trimChars (parts.headD [])
    let value := trimChars (joinWithChar '=' parts.tail)
    if key.isEmpty || value.isEmpty then
      Except.error MergeError.invalidFormat
    else
      Except.ok (String.mk key, String.mk value)

/-- Modelled from the spec (section 4.1, merge algorithm): walk the
segments except the last; a missing name entry and an index at the
append point both create a fresh empty container whose kind is decided
by the kind of the next segment; the last segment appends at the append
point, overwrites within bounds, or sets the map entry. -/
def applySegsSpec : List Seg → String → Doc → Except MergeError Doc
  | [], _, _ => Except.error MergeError.typeError
  | [last], value, node =>
    match last, node with
    | Seg.name s, Doc.obj fields =>
      Except.ok (Doc.obj (setKey fields (DKey.ks s) (parse_if_bool value)))
    | Seg.idx k, Doc.arr l =>
      if k = l.length then Except.ok (Doc.arr (l ++ [parse_if_bool value]))
      else
        match listGet? l k with
        | some _ => Except.ok (Doc.arr (listSet l k (parse_if_bool value)))
        | none => Except.error MergeError.indexOutOfRange
    | _, _ => Except.error MergeError.typeError
  | seg :: next :: rest, value, node =>
    match seg, node with
    | Seg.name s, Doc.obj fields =>
      match getKey? fields (DKey.ks s) with
      | some child =>
        (applySegsSpec (next :: rest) value child).map
          (fun d => Doc.obj (setKey fields (DKey.ks s) d))
      | none =>
        let child0 : Doc := if isIdx next then Doc.arr [] else Doc.obj []
        (applySegsSpec (next :: rest) value child0).map
          (fun d => Doc.obj (setKey fields (DKey.ks s) d))
    | Seg.idx k, Doc.arr l =>
      if k = l.length then
        let child0 : Doc := if isIdx next then Doc.arr [] else Doc.obj []
        (applySegsSpec (next :: rest) value child0).map
          (fun d => Doc.arr (l ++ [d]))
      else
        match listGet? l k with
        | some child =>
          (applySegsSpec (next :: rest) value child).map
            (fun d => Doc.arr (listSet l k d))
        | none => Except.error MergeError.indexOutOfRange
    | _, _ => Except.error MergeError.typeError

/-- Modelled from the spec: the whole merge as worded in section 4.1,
built from `validate_per_spec` and `applySegsSpec`. -/
def merge_per_spec (vars : List String) (top_level_dict : Doc) :
    Except MergeError Doc :=
  vars.foldlM
    (fun doc varStr =>
      match validate_per_spec varStr with
      | Except.error e => Except.error e
      | Except.ok kv =>
        applySegsSpec ((splitOnChar '.' kv.fst.data).map segOfChars) kv.snd doc)
    top_level_dict

/-! ## The wait mode of deploy and destroy (src/cycleops/setups.py) -/

/-- Embeds `WebSocketClient.listen` (client.py lines 317-319) driven by a
scripted stream: `while message := await websocket.recv()` prints
messages until either a falsy (empty) message ends the loop normally, or
the stream is exhausted — modelling the server closing the connection,
on which `recv` raises ConnectionClosed.  Returns the printed messages
and whether ConnectionClosed was raised. -/
def run_listen : List String → List String × Bool
  | [] => ([], true)
  | m :: rest =>
    if m = "" then ([], false)
    else
      let r := run_listen rest
      (m :: r.fst, r.snd)

/-- A terminal report of the wait mode: a success message
(`display_success_message`), an error message (`display_error_message`),
or a verbatim status line (`print`). -/
inductive Report where
  | success (msg : String)
  | failure (msg : String)
  | statusLine (msg : String)
  deriving DecidableEq, Repr

/-- Embeds the `--wait` branch of `deploy` (setups.py lines 198-214):
stream the job logs; when the stream ends with ConnectionClosed, fetch
the job once more and report by its status — `Deployed` reports success,
`Failed` reports failure, anything else prints the status verbatim.
`statuses` scripts the results of successive `job_client.retrieve`
calls; the returned number counts how many of them the code performs.
When the listen loop ends without ConnectionClosed, `deploy` returns
with no further fetch and no report. -/
def deploy_wait (setup_identifier : String) (stream : List String)
    (statuses : List String) : Nat × Option Report :=
  let listened := run_listen stream
  if listened.snd then
    match statuses with
    | [] => (1, none)
    | status :: _ =>
      (1, some
        (if status = "Deployed" then
          Report.success ("Setup " ++ setup_identifier ++ " has been deployed successfully")
        else if status = "Failed" then
          Report.failure ("Setup " ++ setup_identifier ++ " could not be deployed")
        else
          Report.statusLine ("Setup " ++ setup_identifier ++ " is in status " ++ status)))
  else (0, none)

/-- Embeds the `--wait` branch of `destroy` (setups.py lines 247-265):
same shape as `deploy_wait`, with `Initialized` as the terminal success
status. -/
def destroy_wait (setup_identifier : String) (stream : List String)
    (statuses : List String) : Nat × Option Report :=
  let listened := run_listen stream
  if listened.snd then
    match statuses with
    | [] => (1, none)
    | status :: _ =>
      (1, some
        (if status = "Initialized" then
          Report.success ("Setup " ++ setup_identifier ++ " has been destroyed successfully")
        else if status = "Failed" then
          Report.failure ("Setup " ++ setup_identifier ++ " could not be destroyed")
        else
          Report.statusLine ("Setup " ++ setup_identifier ++ " is in status " ++ status)))
  else (0, none)

/-! ## Resource resolution (get_service / get_setup) -/

/-- Result of a `retrieve` call: a single object (GET by id) or an array
(GET of the collection, possibly filtered). -/
inductive RetrieveResult (α : Type) where
  | single (x : α)
  | many (xs : List α)
  deriving DecidableEq, Repr

/-- Is a retrieve result a single object? -/
def RetrieveResult.isSingle {α : Type} : RetrieveResult α → Bool
  | RetrieveResult.single _ => true
  | RetrieveResult.many _ => false

/-- Embeds `ServiceClient.retrieve` / `SetupClient.retrieve` (client.py
lines 87-93 and 131-137): `if service_id:` — Python truthiness of the
optional id string, so a non-empty id issues GET of the single resource
while `None` or the empty string issues GET of the collection with the
given params.  `filterResp` scripts the collection responses keyed by
the optional name filter; `idResp` scripts the by-id responses. -/
def client_retrieve {α : Type} (filterResp : Option String → List α)
    (idResp : String → α) (resource_id : Option String) (params : Option String) :
    RetrieveResult α :=
  match resource_id with
  | some rid =>
    if rid = "" then RetrieveResult.many (filterResp params)
    else RetrieveResult.single (idResp rid)
  | none => RetrieveResult.many (filterResp params)

/-- Embeds `get_service` (services.py lines 436-448): query the
collection with a name filter; if exactly one resource comes back,
return it; otherwise call `retrieve` again with the identifier in the
id position. -/
def get_service {α : Type} (filterResp : Option String → List α)
    (idResp : String → α) (service_identifier : String) : RetrieveResult α :=
  match client_retrieve filterResp idResp none (some service_identifier) with
  | RetrieveResult.many [x] => RetrieveResult.single x
  | _ => client_retrieve filterResp idResp (some service_identifier) none

/-- Embeds `get_setup` (setups.py lines 268-280), identical in shape to
`get_service`. -/
def get_setup {α : Type} (filterResp : Option String → List α)
    (idResp : String → α) (setup_identifier : String) : RetrieveResult α :=
  match client_retrieve filterResp idResp none (some setup_identifier) with
  | RetrieveResult.many [x] => RetrieveResult.single x
  | _ => client_retrieve filterResp idResp (some setup_identifier) none

/-! ## Response handling (Client._handle_response and extract_error_message) -/

/-- An HTTP response as seen by `_handle_response`: status code, the
`Content-Type` header (empty when absent), the raw body text, and the
result of parsing the body as JSON.  The model restricts JSON bodies to
objects with string values, which covers every body the claims mention;
`json?` is `none` when `response.json()` raises JSONDecodeError. -/
structure HttpResponse where
  status : Nat
  contentType : String
  text : String
  json? : Option (List (String × String))

/-- First value bound to a key in a parsed JSON object; models
`key in data` followed by `data[key]`. -/
def lookupStr : List (String × String) → String → Option String
  | [], _ => none
  | (k, v) :: rest, key => if k = key then some v else lookupStr rest key

/-- Embeds `extract_error_message` (utils.py lines 7-29): when the
content type mentions `application/json` and the body parses, return the
`message`, `msg`, or `detail` field (in that order) or the empty string;
when the body does not parse (JSONDecodeError is swallowed) or the
content type is not JSON, return the stripped body text if the content
type mentions `text/plain`, else the empty string. -/
def extract_error_message (r : HttpResponse) : String :=
  if strContainsSub "application/json" r.contentType then
    match r.json? with
    | some fields =>
      match lookupStr fields "message" with
      | some m => m
      | none =>
        match lookupStr fields "msg" with
        | some m => m
        | none =>
          match lookupStr fields "detail" with
          | some m => m
          | none => ""
    | none =>
      if strContainsSub "text/plain" r.contentType then String.mk (trimChars r.text.data)
      else ""
  else if strContainsSub "text/plain" r.contentType then String.mk (trimChars r.text.data)
  else ""

/-- Classification of a response by `_handle_response`: the raised
`AuthenticationError`, the empty success (`None`) for 204, the raised
`APIError`, or the parsed JSON body. -/
inductive HandleResult where
  | authError (msg : String)
  | emptySuccess
  | apiError (msg : String)
  | success (body : List (String × String))
  deriving DecidableEq, Repr

/-- Is a handle result a parsed-body success? -/
def HandleResult.isBodySuccess : HandleResult → Bool
  | HandleResult.success _ => true
  | _ => false

/-- Embeds `Client._handle_response` (client.py lines 47-65): 401 raises
`AuthenticationError` with the extracted message; 204 returns `None`;
otherwise `response.raise_for_status()` raises for status codes in
[400, 600) and `response.json()` is returned, any exception of the two
(including a JSON parse failure on a non-JSON body) being turned into
`APIError` with the extracted message.  The surrounding try/except that
prints the error and aborts the command preserves this classification. -/
def handle_response (r : HttpResponse) : HandleResult :=
  if r.status = 401 then HandleResult.authError (extract_error_message r)
  else if r.status = 204 then HandleResult.emptySuccess
  else if 400 ≤ r.status ∧ r.status < 600 then
    HandleResult.apiError (extract_error_message r)
  else
    match r.json? with
    | some body => HandleResult.success body
    | none => HandleResult.apiError (extract_error_message r)

/-- Scripted collection responses used for concrete resolution runs:
every name filter returns no matches. -/
def noMatchFilter : Option String → List Nat := fun _ => []

/-- Scripted by-id responses used for concrete resolution runs: every id
returns the resource 7. -/
def constIdLookup : String → Nat := fun _ => 7

/-! ## Helper lemmas -/

theorem listGet?_append_length {α : Type} (l : List α) (a : α) :
    listGet? (l ++ [a]) l.length = some a := by
  induction l with
  | nil => rfl
  | cons b bs ih => simpa [listGet?] using ih

theorem listSet_append_length {α : Type} (l : List α) (a b : α) :
    listSet (l ++ [a]) l.length b = l ++ [b] := by
  induction l with
  | nil => rfl
  | cons x xs ih => simpa [listSet] using ih

theorem listGet?_eq_none_of_le {α : Type} (l : List α) (n : Nat)
    (h : l.length ≤ n) : listGet? l n = none := by
  induction l generalizing n with
  | nil => cases n <;> rfl
  | cons a as ih =>
    cases n with
    | zero => simp at h
    | succ m => exact ih m (Nat.le_of_succ_le_succ h)

/-! ## Claims about the path-merge engine -/

/-- Claim C1 (corrected): at an intermediate index segment equal to the
current list's length, `dict_from_variables` appends a new empty dict —
regardless of the kind of the next path segment — and descends into it.
(The claim said the kind of the appended container is decided by the
next segment's kind; the code always appends `{}`.) -/
theorem claim_C1_theorem (l : List Doc) (k : Nat) (next : Seg) (rest : List Seg)
    (value : String) (h : k = l.length) :
    applySegs (Seg.idx k :: next :: rest) value (Doc.arr l) =
      (applySegs (next :: rest) value (Doc.obj [])).map
        (fun d => Doc.arr (l ++ [d])) := by
  subst h
  simp only [applySegs, le_refl, if_true, listGet?_append_length]
  cases applySegs (next :: rest) value (Doc.obj []) with
  | error e => rfl
  | ok d => simp [Except.map, listSet_append_length]

/-- Witness for C1: the merge step at the append point of an empty list,
with an index segment following. -/
theorem claim_C1_witness :
    (0 : Nat) = List.length ([] : List Doc) ∧
    applySegs [Seg.idx 0, Seg.idx 0] "v" (Doc.arr []) =
      (applySegs [Seg.idx 0] "v" (Doc.obj [])).map
        (fun d => Doc.arr ([] ++ [d])) :=
  ⟨rfl, claim_C1_theorem [] 0 (Seg.idx 0) [] "v" rfl⟩

/-- Counterexample for C1 as stated: on `a.0.0=v` the next segment after
the append-point index `0` is itself an index, so the claim requires a
fresh empty list (and overall success with `{"a": [["v"]]}`, as the
spec-worded engine produces); the code appends an empty dict instead and
the merge fails with a TypeError (`dict` has no `append`). -/
theorem claim_C1_cex :
    exceptIsOk (dict_from_variables ["a.0.0=v"] (Doc.obj [])) = false ∧
    dict_from_variables ["a.0.0=v"] (Doc.obj []) =
      Except.error MergeError.typeError ∧
    merge_per_spec ["a.0.0=v"] (Doc.obj []) =
      Except.ok (Doc.obj [(DKey.ks "a", Doc.arr [Doc.arr [Doc.str "v"]])]) :=
  ⟨rfl, rfl, rfl⟩

/-- Claim C3 (confirmed): two merge calls sharing one top-level document
with overlapping path prefixes keep sibling data: `containers.0.image=a`
then `containers.0.ports=b` on an empty document yield one list element
carrying both fields. -/
theorem claim_C3_theorem :
    (do
      let d1 ← dict_from_variables ["containers.0.image=a"] (Doc.obj [])
      dict_from_variables ["containers.0.ports=b"] d1) =
      Except.ok (Doc.obj [(DKey.ks "containers",
        Doc.arr [Doc.obj [(DKey.ks "image", Doc.str "a"),
                          (DKey.ks "ports", Doc.str "b")]])]) := rfl

/-- Claim C4 (confirmed): list growth is append-only — `containers.0.x=a`
then `containers.1.x=b` yield a two-element list, `containers.5.x=a` on
an empty document fails with an index error rather than creating a
sparse list, and in general an index segment on a list fails past the
append point and extends the list exactly at its length. -/
theorem claim_C4_theorem (l : List Doc) (v : String) (k : Nat) (next : Seg)
    (rest : List Seg) (hk : l.length < k) :
    dict_from_variables ["containers.0.x=a", "containers.1.x=b"] (Doc.obj []) =
      Except.ok (Doc.obj [(DKey.ks "containers",
        Doc.arr [Doc.obj [(DKey.ks "x", Doc.str "a")],
                 Doc.obj [(DKey.ks "x", Doc.str "b")]])]) ∧
    dict_from_variables ["containers.5.x=a"] (Doc.obj []) =
      Except.error MergeError.indexOutOfRange ∧
    applySegs (Seg.idx k :: next :: rest) v (Doc.arr l) =
      Except.error MergeError.indexOutOfRange ∧
    assignLast (Seg.idx k) v (Doc.arr l) = Except.error MergeError.indexOutOfRange ∧
    assignLast (Seg.idx l.length) v (Doc.arr l) =
      Except.ok (Doc.arr (l ++ [parse_if_bool v])) := by
  refine ⟨rfl, rfl, ?_, ?_, ?_⟩
  · have hle : l.length ≤ k := Nat.le_of_lt hk
    have hnone : listGet? (l ++ [Doc.obj []]) k = none :=
      listGet?_eq_none_of_le _ k (by simpa using hk)
    simp [applySegs, hle, hnone]
  · have hle : l.length ≤ k := Nat.le_of_lt hk
    simp only [assignLast, hle, if_true]
    rw [if_neg]
    simp only [List.length_append, List.length_singleton]
    omega
  · have hlt : l.length < (l ++ [Doc.str v]).length := by
      simp
    simp [assignLast, hlt, listSet_append_length]

/-- Witness for C4: the empty list with index 5. -/
theorem claim_C4_witness :
    dict_from_variables ["containers.0.x=a", "containers.1.x=b"] (Doc.obj []) =
      Except.ok (Doc.obj [(DKey.ks "containers",
        Doc.arr [Doc.obj [(DKey.ks "x", Doc.str "a")],
                 Doc.obj [(DKey.ks "x", Doc.str "b")]])]) ∧
    dict_from_variables ["containers.5.x=a"] (Doc.obj []) =
      Except.error MergeError.indexOutOfRange ∧
    applySegs [Seg.idx 5, Seg.name "x"] "a" (Doc.arr []) =
      Except.error MergeError.indexOutOfRange ∧
    assignLast (Seg.idx 5) "a" (Doc.arr []) = Except.error MergeError.indexOutOfRange ∧
    assignLast (Seg.idx (List.length ([] : List Doc))) "a" (Doc.arr []) =
      Except.ok (Doc.arr ([] ++ [parse_if_bool "a"])) :=
  claim_C4_theorem [] "a" 5 (Seg.name "x") [] (by decide)

/-- Claim C7 (confirmed): value normalization maps the strings `true` and
`false`, compared case-insensitively, to booleans and leaves every other
value a string; `flag=true` and `flag=TRUE` store boolean true, while
`flag=yes` stores the string `yes`. -/
theorem claim_C7_theorem (v : String) :
    (strToLower v = "true" → parse_if_bool v = Doc.bool true) ∧
    (strToLower v = "false" → parse_if_bool v = Doc.bool false) ∧
    (strToLower v ≠ "true" → strToLower v ≠ "false" → parse_if_bool v = Doc.str v) ∧
    dict_from_variables ["flag=true"] (Doc.obj []) =
      Except.ok (Doc.obj [(DKey.ks "flag", Doc.bool true)]) ∧
    dict_from_variables ["flag=TRUE"] (Doc.obj []) =
      Except.ok (Doc.obj [(DKey.ks "flag", Doc.bool true)]) ∧
    dict_from_variables ["flag=yes"] (Doc.obj []) =
      Except.ok (Doc.obj [(DKey.ks "flag", Doc.str "yes")]) := by
  refine ⟨?_, ?_, ?_, rfl, rfl, rfl⟩
  · intro h; simp [parse_if_bool, h]
  · intro h; simp [parse_if_bool, h]
  · intro h1 h2; simp [parse_if_bool, h1, h2]

/-- Witness for C7: a mixed-case `fAlSe` parses to boolean false. -/
theorem claim_C7_witness : parse_if_bool "fAlSe" = Doc.bool false := by
  have h := claim_C7_theorem "fAlSe"
  exact h.2.1 (by decide)

/-- Claim C10 (confirmed): calls of `dict_from_variables` that omit the
document argument share the one default dict of the function definition,
so a call with `a=1` followed by an independent call with `b=2` returns
a document holding both keys. -/
theorem claim_C10_theorem :
    dict_from_variables_default_calls [["a=1"], ["b=2"]] =
      Except.ok (Doc.obj [(DKey.ks "a", Doc.str "1"), (DKey.ks "b", Doc.str "2")]) ∧
    getKey? [(DKey.ks "a", Doc.str "1"), (DKey.ks "b", Doc.str "2")]
        (DKey.ks "a") = some (Doc.str "1") ∧
    getKey? [(DKey.ks "a", Doc.str "1"), (DKey.ks "b", Doc.str "2")]
        (DKey.ks "b") = some (Doc.str "2") :=
  ⟨rfl, rfl, rfl⟩

/-! ## Claims about the wait mode of deploy and destroy -/

/-- Claim C2 (corrected): wait mode performs no polling loop — it never
fetches the job status more than once, and on the scripted status
sequence `[Initialized, Deploying, Deployed]` it performs exactly one
fetch after the log stream closes and prints the `Initialized` status
line verbatim instead of polling on to success. -/
theorem claim_C2_theorem :
    (∀ (id : String) (stream statuses : List String),
        (deploy_wait id stream statuses).fst ≤ 1) ∧
    deploy_wait "mysetup" [] ["Initialized", "Deploying", "Deployed"] =
      (1, some (Report.statusLine "Setup mysetup is in status Initialized")) ∧
    deploy_wait "mysetup" [] ["Deployed"] =
      (1, some (Report.success "Setup mysetup has been deployed successfully")) := by
  refine ⟨?_, rfl, rfl⟩
  intro id stream statuses
  simp only [deploy_wait]
  cases (run_listen stream).snd
  · simp
  · cases statuses <;> simp

/-- Counterexample for C2 as stated: on the scripted statuses
`[Initialized, Deploying, Deployed]` the wait-mode flow fetches the job
exactly once — not three times — and reports the non-terminal status
line, not success. -/
theorem claim_C2_cex :
    (deploy_wait "mysetup" [] ["Initialized", "Deploying", "Deployed"]).fst = 1 ∧
    deploy_wait "mysetup" [] ["Initialized", "Deploying", "Deployed"] =
      (1, some (Report.statusLine "Setup mysetup is in status Initialized")) :=
  ⟨rfl, rfl⟩

/-- Claim C6 (confirmed): when the log stream ends in ConnectionClosed
during a `--wait` deploy or destroy, the client performs exactly one
final job fetch and reports from its status: for deploy, `Deployed` is
success, `Failed` is failure, anything else is printed verbatim; for
destroy, `Initialized` is success and `Failed` is failure; a `Failed`
status produces an error report, not an exception. -/
theorem claim_C6_theorem (id status : String) (stream : List String)
    (rest : List String) (hclosed : (run_listen stream).snd = true) :
    deploy_wait id stream (status :: rest) =
      (1, some
        (if status = "Deployed" then
          Report.success ("Setup " ++ id ++ " has been deployed successfully")
        else if status = "Failed" then
          Report.failure ("Setup " ++ id ++ " could not be deployed")
        else Report.statusLine ("Setup " ++ id ++ " is in status " ++ status))) ∧
    destroy_wait id stream (status :: rest) =
      (1, some
        (if status = "Initialized" then
          Report.success ("Setup " ++ id ++ " has been destroyed successfully")
        else if status = "Failed" then
          Report.failure ("Setup " ++ id ++ " could not be destroyed")
        else Report.statusLine ("Setup " ++ id ++ " is in status " ++ status))) := by
  constructor <;> simp [deploy_wait, destroy_wait, hclosed]

/-- Witness for C6: an immediately closed stream and a `Failed` final
status report failure for both deploy and destroy. -/
theorem claim_C6_witness :
    deploy_wait "s" [] ["Failed"] =
      (1, some (Report.failure "Setup s could not be deployed")) ∧
    destroy_wait "s" [] ["Failed"] =
      (1, some (Report.failure "Setup s could not be destroyed")) := by
  have h := claim_C6_theorem "s" "Failed" [] [] rfl
  simpa using h

/-! ## Claims about resource resolution -/

/-- Claim C8 (corrected): for a non-empty identifier, resolution queries
by name filter first; exactly one match is returned as is — for any
scripted by-id responses, so without depending on an id lookup — and
zero or several matches fall back to a direct by-id retrieve.  (For the
empty identifier the fallback issues the unfiltered collection query
instead, because `retrieve` tests Python truthiness of the id.) -/
theorem claim_C8_theorem {α : Type} (filterResp : Option String → List α)
    (idResp : String → α) (identifier : String) (hne : identifier ≠ "") :
    (∀ x, filterResp (some identifier) = [x] →
        get_service filterResp idResp identifier = RetrieveResult.single x ∧
        get_setup filterResp idResp identifier = RetrieveResult.single x) ∧
    ((filterResp (some identifier)).length ≠ 1 →
        get_service filterResp idResp identifier =
          RetrieveResult.single (idResp identifier) ∧
        get_setup filterResp idResp identifier =
          RetrieveResult.single (idResp identifier)) := by
  constructor
  · intro x hx
    constructor <;> simp [get_service, get_setup, client_retrieve, hx]
  · intro hlen
    cases hx : filterResp (some identifier) with
    | nil => constructor <;> simp [get_service, get_setup, client_retrieve, hx, hne]
    | cons a as =>
      cases as with
      | nil => rw [hx] at hlen; simp at hlen
      | cons b bs =>
        constructor <;> simp [get_service, get_setup, client_retrieve, hx, hne]

/-- Witness for C8: one name match resolves without the id lookup; two
matches fall back to the id lookup. -/
theorem claim_C8_witness :
    get_service (fun _ => [5]) (fun _ => (9 : Nat)) "web" = RetrieveResult.single 5 ∧
    get_setup (fun _ => [5]) (fun _ => (9 : Nat)) "web" = RetrieveResult.single 5 :=
  (claim_C8_theorem (fun _ => [5]) (fun _ => (9 : Nat)) "web" (by decide)).1 5 rfl

/-- Counterexample for C8 as stated: for the empty identifier with zero
name matches, the fallback call `retrieve("")` takes the falsy branch of
`if service_id:` and issues the unfiltered collection query, so
resolution returns an array — not the single resource that a direct
by-id retrieve (which yields `single 7` here) would return. -/
theorem claim_C8_cex :
    get_service noMatchFilter constIdLookup "" = RetrieveResult.many [] ∧
    RetrieveResult.isSingle (get_service noMatchFilter constIdLookup "") = false ∧
    RetrieveResult.isSingle (RetrieveResult.single (constIdLookup "")) = true :=
  ⟨rfl, rfl, rfl⟩

/-! ## Claims about response handling -/

/-- Claim C9 (corrected): 401 yields an authentication error and 204 an
empty success; any status in [400, 600) yields an API error whose
message comes from the `message`, `msg`, or `detail` field of a JSON
body (in that order), from the stripped text of a `text/plain` body, or
is empty; any remaining response yields the parsed JSON body when the
body parses and an API error otherwise.  (The claim said every 2xx
response with a body yields the parsed body and every non-2xx an API
error; the code keys success on JSON parsability and errors on the
[400, 600) range instead.) -/
theorem claim_C9_theorem (r : HttpResponse) :
    (r.status = 401 → handle_response r = HandleResult.authError (extract_error_message r)) ∧
    (r.status = 204 → handle_response r = HandleResult.emptySuccess) ∧
    (r.status ≠ 401 → 400 ≤ r.status → r.status < 600 →
        handle_response r = HandleResult.apiError (extract_error_message r)) ∧
    (∀ body, r.status ≠ 401 → r.status ≠ 204 → ¬(400 ≤ r.status ∧ r.status < 600) →
        r.json? = some body → handle_response r = HandleResult.success body) ∧
    (r.status ≠ 401 → r.status ≠ 204 → ¬(400 ≤ r.status ∧ r.status < 600) →
        r.json? = none → handle_response r = HandleResult.apiError (extract_error_message r)) ∧
    (∀ fields m, strContainsSub "application/json" r.contentType = true →
        r.json? = some fields → lookupStr fields "message" = some m →
        extract_error_message r = m) ∧
    (∀ fields m, strContainsSub "application/json" r.contentType = true →
        r.json? = some fields → lookupStr fields "message" = none →
        lookupStr fields "msg" = some m → extract_error_message r = m) ∧
    (∀ fields m, strContainsSub "application/json" r.contentType = true →
        r.json? = some fields → lookupStr fields "message" = none →
        lookupStr fields "msg" = none → lookupStr fields "detail" = some m →
        extract_error_message r = m) ∧
    (strContainsSub "application/json" r.contentType = false →
        strContainsSub "text/plain" r.contentType = true →
        extract_error_message r = String.mk (trimChars r.text.data)) ∧
    (strContainsSub "application/json" r.contentType = false →
        strContainsSub "text/plain" r.contentType = false →
        extract_error_message r = "") := by
  refine ⟨?_, ?_, ?_, ?_, ?_, ?_, ?_, ?_, ?_, ?_⟩
  · intro h; simp [handle_response, h]
  · intro h; simp [handle_response, h]
  · intro h401 h400 h600
    have h204 : r.status ≠ 204 := by omega
    simp [handle_response, h401, h204, h400, h600]
  · intro body h401 h204 hrange hjson
    simp [handle_response, h401, h204, hrange, hjson]
  · intro h401 h204 hrange hjson
    simp [handle_response, h401, h204, hrange, hjson]
  · intro fields m hct hjson hmsg
    simp [extract_error_message, hct, hjson, hmsg]
  · intro fields m hct hjson hmessage hmsg
    simp [extract_error_message, hct, hjson, hmessage, hmsg]
  · intro fields m hct hjson hmessage hmsg hdetail
    simp [extract_error_message, hct, hjson, hmessage, hmsg, hdetail]
  · intro hct hplain
    simp [extract_error_message, hct, hplain]
  · intro hct hplain
    simp [extract_error_message, hct, hplain]

/-- Witness for C9: a 404 with JSON body carrying only a `detail` field
yields an API error with that message. -/
theorem claim_C9_witness :
    handle_response
        (HttpResponse.mk 404 "application/json" "raw"
          (some [("detail", "not found")])) =
      HandleResult.apiError "not found" :=
  (claim_C9_theorem
      (HttpResponse.mk 404 "application/json" "raw"
        (some [("detail", "not found")]))).2.2.1
    (by decide) (by decide) (by decide)

/-- Counterexample for C9 as stated: a 200 response whose `text/plain`
body does not parse as JSON yields an API error carrying the body text,
not a parsed-body success. -/
theorem claim_C9_cex :
    handle_response (HttpResponse.mk 200 "text/plain" "hello" none) =
      HandleResult.apiError "hello" ∧
    HandleResult.isBodySuccess
        (handle_response (HttpResponse.mk 200 "text/plain" "hello" none)) = false :=
  ⟨rfl, rfl⟩

/-! ## Claims about variable-format validation -/

theorem charsContains_append (c : Char) (l r : List Char) :
    charsContains c (l ++ r) = (charsContains c l || charsContains c r) := by
  induction l with
  | nil => simp [charsContains]
  | cons a as ih =>
    by_cases h : a = c <;> simp [charsContains, h, ih]

theorem splitOnChar_ne_nil (c : Char) (l : List Char) : splitOnChar c l ≠ [] := by
  induction l with
  | nil => simp [splitOnChar]
  | cons a as ih =>
    by_cases h : a = c
    · simp [splitOnChar, h]
    · simp only [splitOnChar, h, if_false]
      cases hs : splitOnChar c as <;> simp

theorem splitOnChar_sep_append (c : Char) (l r : List Char)
    (h : charsContains c l = false) :
    splitOnChar c (l ++ c :: r) = l :: splitOnChar c r := by
  induction l with
  | nil => simp [splitOnChar]
  | cons a as ih =>
    by_cases hac : a = c
    · subst hac
      simp [charsContains] at h
    · simp only [charsContains, hac, if_false] at h
      simp [splitOnChar, hac, ih h]

theorem joinWithChar_splitOnChar (c : Char) (l : List Char) :
    joinWithChar c (splitOnChar c l) = l := by
  induction l with
  | nil => rfl
  | cons a as ih =>
    by_cases h : a = c
    · subst h
      cases hs : splitOnChar a as with
      | nil => exact absurd hs (splitOnChar_ne_nil a as)
      | cons h1 t1 =>
        rw [hs] at ih
        simp only [splitOnChar, if_pos rfl, joinWithChar]
        rw [hs]
        simpa [joinWithChar] using ih
    · cases hs : splitOnChar c as with
      | nil => exact absurd hs (splitOnChar_ne_nil c as)
      | cons h1 t1 =>
        rw [hs] at ih
        simp only [splitOnChar, h, if_false]
        rw [hs]
        cases t1 with
        | nil =>
          simp only [joinWithChar] at ih ⊢
          rw [ih]
        | cons h2 t2 =>
          simp only [joinWithChar] at ih ⊢
          rw [List.cons_append, ih]

theorem strData_append (a b : String) : (a ++ b).data = a.data ++ b.data := rfl

theorem strDataNeNil (s : String) (h : s ≠ "") : s.data ≠ [] := by
  intro hd
  apply h
  cases s with
  | mk l =>
    simp only [String.data] at hd
    subst hd
    rfl

/-- Claim C5 (corrected): an input with an `=` whose key part and value
part are non-empty validates, returning the trimmed key and value; an
input with no `=`, or with a key or value part that is empty before
trimming, fails with InvalidFormat.  (The claim placed the emptiness
check after trimming; the code checks before trimming, so whitespace-only
parts pass and are trimmed to the empty string afterwards.)  Validation
is pure: no request is built from an invalid variable. -/
theorem claim_C5_theorem (key value s : String) (hkey : key ≠ "") (hval : value ≠ "")
    (hknoeq : charsContains '=' key.data = false)
    (hnoeq : charsContains '=' s.data = false) :
    validate_variable_format (key ++ "=" ++ value) =
      Except.ok (String.mk (trimChars key.data), String.mk (trimChars value.data)) ∧
    validate_variable_format s = Except.error MergeError.invalidFormat ∧
    validate_variable_format ("=" ++ value) = Except.error MergeError.invalidFormat ∧
    validate_variable_format (key ++ "=") = Except.error MergeError.invalidFormat := by
  have hkd : key.data ≠ [] := strDataNeNil key hkey
  have hvd : value.data ≠ [] := strDataNeNil value hval
  refine ⟨?_, ?_, ?_, ?_⟩
  · have hdata : (key ++ "=" ++ value).data = key.data ++ '=' :: value.data := by
      rw [strData_append, strData_append, List.append_assoc]
      rfl
    have hsplit : splitOnChar '=' (key.data ++ '=' :: value.data) =
        key.data :: splitOnChar '=' value.data :=
      splitOnChar_sep_append '=' key.data value.data hknoeq
    simp only [validate_variable_format, hdata, hsplit, charsContains_append]
    simp only [charsContains, if_pos rfl, Bool.or_true, List.headD_cons, List.tail_cons,
      joinWithChar_splitOnChar]
    simp [List.isEmpty_iff, hkd, hvd]
  · simp [validate_variable_format, hnoeq]
  · have hdata : ("=" ++ value).data = '=' :: value.data := rfl
    have hsplit : splitOnChar '=' (([] : List Char) ++ '=' :: value.data) =
        [] :: splitOnChar '=' value.data :=
      splitOnChar_sep_append '=' [] value.data rfl
    simp only [List.nil_append] at hsplit
    simp [validate_variable_format, hdata, hsplit, charsContains]
  · have hdata : (key ++ "=").data = key.data ++ '=' :: [] := rfl
    have hsplit : splitOnChar '=' (key.data ++ '=' :: []) =
        key.data :: splitOnChar '=' [] :=
      splitOnChar_sep_append '=' key.data [] hknoeq
    simp only [validate_variable_format, hdata, hsplit, charsContains_append]
    simp [charsContains, splitOnChar, joinWithChar, List.isEmpty_iff, hkd]

/-- Witness for C5: `k=v` validates to `(k, v)`; `abc`, `=v`, and `k=`
fail with InvalidFormat. -/
theorem claim_C5_witness :
    validate_variable_format ("k" ++ "=" ++ "v") =
      Except.ok (String.mk (trimChars "k".data), String.mk (trimChars "v".data)) ∧
    validate_variable_format "abc" = Except.error MergeError.invalidFormat ∧
    validate_variable_format ("=" ++ "v") = Except.error MergeError.invalidFormat ∧
    validate_variable_format ("k" ++ "=") = Except.error MergeError.invalidFormat :=
  claim_C5_theorem "k" "v" "abc" (by decide) (by decide) rfl rfl

/-- Counterexample for C5 as stated: the input ` =v` has a key that is
empty after trimming, so the claim requires an InvalidFormat failure —
as the spec-worded validation produces — but the code validates it
(returning the trimmed-to-empty key) and the merge succeeds, storing the
value under the empty key. -/
theorem claim_C5_cex :
    validate_variable_format " =v" = Except.ok ("", "v") ∧
    validate_per_spec " =v" = Except.error MergeError.invalidFormat ∧
    dict_from_variables [" =v"] (Doc.obj []) =
      Except.ok (Doc.obj [(DKey.ks "", Doc.str "v")]) :=
  ⟨rfl, rfl, rfl⟩
